import Mathlib

/-!
Verification of the gainforest-ipfs-archiver core against its specification.

The TypeScript sources are shallowly embedded: pure computations become Lean
functions over `List Char` / `String` / `Nat`; database and network effects are
modelled by explicit state passing (assoc-list stores, statement traces) and by
oracle parameters for the external collaborators (the WHATWG URL parser, the
mime-types lookup table, the HTTP transport, the attestation source).  Fallible
operations return `Option` or `Except`.
-/

/-! ## Identifier parsing (`EcocertService.parseEcocertId`, src/src/services/ecocertService.ts:42-66)

JavaScript `ecocertId.split('-')` is embedded as `splitDash` over `List Char`;
the three regex tests `/^\d+$/`, `/^0x[a-fA-F0-9]{40}$/`, `/^\d+$/` become
`isNumericSeg` and `isAddressSeg`. -/

/-- One segment test of `/^\d+$/`: nonempty and all decimal digits. -/
def isNumericSeg (cs : List Char) : Bool :=
  decide (cs ≠ []) && cs.all Char.isDigit

/-- Hexadecimal digit class `[a-fA-F0-9]`. -/
def isHexChar (c : Char) : Bool :=
  c.isDigit || (decide ('a' ≤ c) && decide (c ≤ 'f')) || (decide ('A' ≤ c) && decide (c ≤ 'F'))

/-- Segment test of `/^0x[a-fA-F0-9]{40}$/`: literal `0x` followed by exactly
40 hex digits. -/
def isAddressSeg (cs : List Char) : Bool :=
  decide (cs.length = 42) && decide (cs.take 2 = ['0', 'x']) && (cs.drop 2).all isHexChar

/-- Embedding of JavaScript `s.split('-')` for a one-character separator. -/
def splitDash : List Char → List (List Char)
  | [] => [[]]
  | c :: rest =>
    if c = '-' then [] :: splitDash rest
    else
      match splitDash rest with
      | [] => [[c]]
      | g :: gs => (c :: g) :: gs

/-- Parsed ecocert identifier, mirroring the `EcocertId` interface. -/
structure EcocertId where
  chainId : List Char
  contractAddress : List Char
  tokenId : List Char
  fullId : List Char
deriving DecidableEq, Repr

/-- Embedding of `EcocertService.parseEcocertId`: split on `-`, require exactly
three parts, test each part; a thrown `Error` becomes `none`. -/
def parseEcocertId (cs : List Char) : Option EcocertId :=
  match splitDash cs with
  | [p0, p1, p2] =>
    if isNumericSeg p0 && isAddressSeg p1 && isNumericSeg p2 then
      some ⟨p0, p1, p2, cs⟩
    else none
  | _ => none

/-- Joining the split back with dashes recovers the input. -/
def joinDash : List (List Char) → List Char
  | [] => []
  | [x] => x
  | x :: xs => x ++ '-' :: joinDash xs

/-! ## Attestations and URL extraction (`EcocertService.extractExternalUrls`,
src/src/services/ecocertService.ts:105-124)

URL syntactic validity in the source delegates to the WHATWG `new URL` parser
(`EcocertService.isValidUrl`, lines 404-411); that external parser is embedded
as an oracle predicate `isValidUrl : String → Bool` ("parses and the protocol
is http: or https:"). -/

/-- Tag of a `ContentSource` (`'url' | 'ipfs' | 'arweave'`). -/
inductive SourceType where
  | url
  | ipfs
  | arweave
deriving DecidableEq, Repr

/-- A content source entry of an attestation payload. -/
structure ContentSource where
  type : SourceType
  src : String
deriving DecidableEq, Repr

/-- Attestation payload; only `sources` participates in URL extraction. -/
structure AttestationData where
  sources : List ContentSource
deriving DecidableEq, Repr

/-- EAS attestation record; fields not consulted by the embedded operations
(schema uid, attester, timestamp) are omitted. -/
structure EcocertAttestation where
  uid : String
  data : AttestationData
deriving DecidableEq, Repr

/-- One `urls.add(source.src)` step of the extraction loop: a JavaScript `Set`
keeps insertion order and ignores re-insertions. -/
def addSource (isValidUrl : String → Bool) (acc : List String) (s : ContentSource) :
    List String :=
  if s.type = .url ∧ isValidUrl s.src = true ∧ s.src ∉ acc then acc ++ [s.src] else acc

/-- Embedding of `EcocertService.extractExternalUrls`: nested loops over the
attestations and their sources, collecting `url`-tagged valid sources into a
`Set`, returned in insertion order via `Array.from`. -/
def extractExternalUrls (isValidUrl : String → Bool)
    (attestations : List EcocertAttestation) : List String :=
  attestations.foldl (fun acc a => a.data.sources.foldl (addSource isValidUrl) acc) []

/-! ## The per-identifier pipeline (`EcocertService.processEcocert`,
src/src/services/ecocertService.ts:130-257)

Database and network effects are embedded as outcome oracles:
`attInsertError a = some m` means `insertAttestation` threw with message `m`
(caught as a soft error, line 179-185), `urlError u = some m` means
`processUrl` threw with message `m` for URL `u` (caught at line 210-214).
`insertEcocert` is an insert-or-ignore and `markEcocertProcessed` finds the
row just upserted by the same run, so both are modelled as succeeding. -/

/-- The `ProcessingStatus` union of src/src/types/ecocert.ts. -/
inductive ProcessingStatus where
  | pending
  | processing
  | completed
  | failed
  | retry
deriving DecidableEq, Repr

/-- Result record of one `processEcocert` run (`EcocertProcessingResult`);
the `processedAt` wall-clock field is omitted. -/
structure EcocertProcessingResult where
  ecocertId : List Char
  status : ProcessingStatus
  attestationsFound : Nat
  urlsExtracted : Nat
  successfullyArchived : Nat
  errors : List String
deriving DecidableEq, Repr

/-- Embedding of `EcocertService.processEcocert`. -/
def processEcocert (isValidUrl : String → Bool)
    (attInsertError : EcocertAttestation → Option String)
    (urlError : String → Option String)
    (ecocertId : List Char)
    (attestations : List EcocertAttestation) : EcocertProcessingResult :=
  match parseEcocertId ecocertId with
  | none =>
    { ecocertId := ecocertId, status := .failed, attestationsFound := 0, urlsExtracted := 0,
      successfullyArchived := 0, errors := ["Processing failed: invalid ecocert ID format"] }
  | some _ =>
    if attestations.length = 0 then
      { ecocertId := ecocertId, status := .completed, attestationsFound := 0,
        urlsExtracted := 0, successfullyArchived := 0, errors := ["No attestations found"] }
    else
      let attErrors := attestations.filterMap fun a =>
        (attInsertError a).map
          fun m => "Failed to store attestation " ++ a.uid ++ ": " ++ m
      let urls := extractExternalUrls isValidUrl attestations
      if urls.length = 0 then
        { ecocertId := ecocertId, status := .completed,
          attestationsFound := attestations.length, urlsExtracted := 0,
          successfullyArchived := 0, errors := ["No URLs found in attestations"] }
      else
        let urlErrors := urls.filterMap fun u =>
          (urlError u).map fun m => "Failed to process URL " ++ u ++ ": " ++ m
        let succ := (urls.filter fun u => urlError u = none).length
        let errors := attErrors ++ urlErrors
        { ecocertId := ecocertId,
          status :=
            if errors.length = 0 then .completed
            else if succ > 0 then .completed
            else .failed,
          attestationsFound := attestations.length, urlsExtracted := urls.length,
          successfullyArchived := succ, errors := errors }

/-! ## Record Store state semantics (`DatabaseService.updateArchiveStatus`,
src/unnamed/part_016:398-451)

The `archived_content` table is embedded as an association list from row id to
row; a knex `update ... where id` maps every matching entry and reports the
affected-row count.  Timestamps (`new Date()`) are `Nat` milliseconds passed in
as `now`.  JavaScript truthiness of the optional `errorMessage` argument
(`undefined` and `""` are falsy) is `jsTruthy`. -/

/-- The `ArchiveStatus` union of the database types. -/
inductive ArchiveStatus where
  | pending
  | downloading
  | uploading
  | completed
  | failed
deriving DecidableEq, Repr

/-- A row of `archived_content`; columns not touched by the embedded
operations keep their values through updates. -/
structure ArchivedContentRow where
  originalUrl : String
  contentType : String
  ipfsHash : String
  ipfsUrl : String
  status : ArchiveStatus
  errorMessage : Option String
  retryCount : Nat
  lastRetryAt : Option Nat
  archivedAt : Nat
deriving DecidableEq, Repr

/-- Stable machine-readable codes of the `DatabaseError`s thrown by the
embedded Record Store operations. -/
inductive DbErrCode where
  | archivedContentNotFound
  | ecocertNotFound
deriving DecidableEq, Repr

/-- The `archived_content` table: row id to row. -/
def ArchiveStore : Type := List (Nat × ArchivedContentRow)

/-- One SQL `UPDATE ... WHERE id = ?`: apply `f` to every row with the given
id and report the number of affected rows. -/
def updateWhere (id : Nat) (f : ArchivedContentRow → ArchivedContentRow) :
    ArchiveStore → ArchiveStore × Nat
  | [] => ([], 0)
  | (k, r) :: rest =>
    let p := updateWhere id f rest
    if k = id then ((k, f r) :: p.1, p.2 + 1) else ((k, r) :: p.1, p.2)

/-- Read the first row with the given id. -/
def lookupRow (s : ArchiveStore) (id : Nat) : Option ArchivedContentRow :=
  match s with
  | [] => none
  | (k, r) :: rest => if k = id then some r else lookupRow rest id

/-- JavaScript truthiness of an optional string argument. -/
def jsTruthy : Option String → Bool
  | none => false
  | some t => !(t == "")

/-- Embedding of `DatabaseService.updateArchiveStatus`: when entering `failed`
with a truthy message, first a separate `increment('retry_count', 1)`, and the
final update also sets `error_message` and `last_retry_at = new Date()`; when
entering `completed`, a separate update clears `error_message`; the final
update writes `updateData` and throws `ARCHIVED_CONTENT_NOT_FOUND` when it
affects zero rows. -/
def updateArchiveStatus (now : Nat) (id : Nat) (status : ArchiveStatus)
    (errorMessage : Option String) (s : ArchiveStore) : Except DbErrCode ArchiveStore :=
  let s1 :=
    if status = .failed ∧ jsTruthy errorMessage = true then
      (updateWhere id (fun r => { r with retryCount := r.retryCount + 1 }) s).1
    else s
  let s2 :=
    if status = .completed then
      (updateWhere id (fun r => { r with errorMessage := none }) s1).1
    else s1
  let applyUpdateData := fun (r : ArchivedContentRow) =>
    if status = .failed ∧ jsTruthy errorMessage = true then
      { r with status := status, errorMessage := errorMessage, lastRetryAt := some now }
    else { r with status := status }
  let res := updateWhere id applyUpdateData s2
  if res.2 = 0 then .error .archivedContentNotFound else .ok res.1

/-- Sample `archived_content` row for concrete instantiations. -/
def sampleRow : ArchivedContentRow :=
  { originalUrl := "https://example.org/report.pdf", contentType := "unknown",
    ipfsHash := "", ipfsUrl := "", status := .pending, errorMessage := none,
    retryCount := 0, lastRetryAt := none, archivedAt := 1000 }

/-- Sample single-row table for concrete instantiations. -/
def sampleStore : ArchiveStore := [(7, sampleRow)]

/-! ## Transaction structure of the mutating Record Store operations
(src/unnamed/part_016: `insertAttestation` 290-339, `insertArchivedContent`
345-392, `updateArchiveStatus` 398-451)

Each operation is abstracted to the sequence of SQL statements it issues,
grouped into blocks: a `db.transaction(async trx => ...)` body is one block
with `transactional = true`; every statement issued directly on `this.db`
is its own block with `transactional = false`. -/

/-- The SQL statements issued by the three mutating operations. -/
inductive DbStmt where
  | selectEcocert
  | insertAttestationRow
  | incrementAttestationCount
  | insertArchivedContentRow
  | incrementArchivedContentCount
  | incrementRetryCount
  | clearErrorMessage
  | updateArchivedContentRow
deriving DecidableEq, Repr

/-- A group of statements executed together: inside one transaction when
`transactional`, as a bare statement otherwise. -/
structure TxBlock where
  transactional : Bool
  stmts : List DbStmt
deriving DecidableEq, Repr

/-- Statement blocks of `DatabaseService.insertAttestation`: one transaction
holding the parent-existence check, the insert-or-ignore and the
`attestation_count` increment. -/
def insertAttestationBlocks : List TxBlock :=
  [⟨true, [.selectEcocert, .insertAttestationRow, .incrementAttestationCount]⟩]

/-- Statement blocks of `DatabaseService.insertArchivedContent`: one
transaction holding the insert and the `archived_content_count` increment. -/
def insertArchivedContentBlocks : List TxBlock :=
  [⟨true, [.insertArchivedContentRow, .incrementArchivedContentCount]⟩]

/-- Statement blocks of `DatabaseService.updateArchiveStatus`: every statement
runs directly on `this.db`, none inside a transaction. -/
def updateArchiveStatusBlocks (status : ArchiveStatus) (errorMessage : Option String) :
    List TxBlock :=
  (if status = .failed ∧ jsTruthy errorMessage = true then
    [⟨false, [.incrementRetryCount]⟩] else []) ++
  (if status = .completed then [⟨false, [.clearErrorMessage]⟩] else []) ++
  [⟨false, [.updateArchivedContentRow]⟩]

/-- An operation whose writes all happen inside one single transaction. -/
def singleTransaction (blocks : List TxBlock) : Prop :=
  ∃ b, blocks = [b] ∧ b.transactional = true

/-! ## Retry eligibility (`DatabaseService.getFailedArchives`,
src/unnamed/part_016:457-494)

The knex query is embedded over a list of rows: the three `where` clauses
become a filter, `orderBy('last_retry_at', 'asc')` becomes a sort by
`last_retry_at` under PostgreSQL default ascending order (NULLs last), and
`limit(Math.min(limit, 200))` becomes a take. -/

/-- PostgreSQL ascending comparison on a nullable timestamp: NULLs sort
last. -/
def pgAscLe (a b : Option Nat) : Bool :=
  match a, b with
  | some x, some y => decide (x ≤ y)
  | some _, none => true
  | none, some _ => false
  | none, none => true

/-- The `where` clauses of the retry query: `status = 'failed'`,
`retry_count < maxRetries (3)`, and `last_retry_at` null or strictly older
than `Date.now() - retryDelayMinutes (5) * 60 * 1000`. -/
def retryEligible (now : Nat) (r : ArchivedContentRow) : Bool :=
  decide (r.status = .failed) && decide (r.retryCount < 3) &&
    (match r.lastRetryAt with
     | none => true
     | some t => decide (t < now - 5 * 60 * 1000))

/-- Insertion step of the embedded `ORDER BY last_retry_at ASC`. -/
def insertByRetryAt (r : ArchivedContentRow) :
    List ArchivedContentRow → List ArchivedContentRow
  | [] => [r]
  | x :: xs =>
    if pgAscLe r.lastRetryAt x.lastRetryAt then r :: x :: xs
    else x :: insertByRetryAt r xs

/-- The embedded `ORDER BY last_retry_at ASC` (insertion sort). -/
def sortByRetryAt : List ArchivedContentRow → List ArchivedContentRow
  | [] => []
  | r :: rs => insertByRetryAt r (sortByRetryAt rs)

/-- Embedding of `DatabaseService.getFailedArchives`. -/
def getFailedArchives (now : Nat) (limit : Nat)
    (rows : List ArchivedContentRow) : List ArchivedContentRow :=
  (sortByRetryAt (rows.filter (retryEligible now))).take (min limit 200)

/-- Sample eligible failed row (cooldown elapsed). -/
def retryRowEligible : ArchivedContentRow :=
  { originalUrl := "https://example.org/a", contentType := "text/html",
    ipfsHash := "", ipfsUrl := "", status := .failed,
    errorMessage := some "fetch failed", retryCount := 1,
    lastRetryAt := some 1000, archivedAt := 10 }

/-- Sample exhausted failed row (`retryCount = 3`, very old retry stamp). -/
def retryRowExhausted : ArchivedContentRow :=
  { originalUrl := "https://example.org/b", contentType := "text/html",
    ipfsHash := "", ipfsUrl := "", status := .failed,
    errorMessage := some "fetch failed", retryCount := 3,
    lastRetryAt := some 0, archivedAt := 10 }

/-! ## Upload pre-flight validation (`PinataIPFSService.validateContent`,
src/unnamed/part_017:340-390, rules `CONTENT_VALIDATION`,
src/unnamed/part_018:38-60)

The external `mime-types` lookup table is an oracle `mimeLookup : String →
Option String` (`false` results become `none`).  The error strings pushed by
the source are abstracted to one constructor per push site, keeping their
payloads.  `content.toString('utf8', 0, min(1024, len))` is passed in as the
already-decoded `contentHead` string. -/

/-- JavaScript `s.toLowerCase()` (per-character lowering). -/
def toLowerStr (s : String) : String := String.mk (s.data.map Char.toLower)

/-- The regex `/\.[^.]+$/`: the suffix starting at the last dot, provided at
least one non-dot character follows it. -/
def lastExtension (cs : List Char) : Option (List Char) :=
  let r := cs.reverse
  let t := r.takeWhile (fun c => decide (c ≠ '.'))
  if t.isEmpty then none
  else
    match r.drop t.length with
    | [] => none
    | _ :: _ => some ('.' :: t.reverse)

/-- JavaScript `hay.includes(needle)` on strings (contiguous substring). -/
def listContainsSeg (needle hay : List Char) : Bool :=
  (List.range (hay.length + 1)).any (fun i => needle.isPrefixOf (hay.drop i))

/-- `CONTENT_VALIDATION.allowedMimeTypes` of src/unnamed/part_018. -/
def allowedMimeTypes : List String :=
  ["application/pdf", "text/html", "text/plain", "image/jpeg", "image/png",
   "image/gif", "image/webp", "video/mp4", "application/json", "text/csv"]

/-- `CONTENT_VALIDATION.allowedExtensions` of src/unnamed/part_018. -/
def allowedExtensions : List String :=
  [".pdf", ".html", ".htm", ".txt", ".json", ".csv",
   ".jpg", ".jpeg", ".png", ".gif", ".webp", ".mp4", ".mov"]

/-- The heuristic malware patterns scanned for in the first kilobyte. -/
def suspiciousPatterns : List String :=
  ["<script", "javascript:", "eval(", "document.write"]

/-- Environment-dependent members of `CONTENT_VALIDATION`. -/
structure ContentValidationConfig where
  maxFileSizeMB : Nat
  requireHttps : Bool
  scanForMalware : Bool
deriving DecidableEq, Repr

/-- One abstract error per `errors.push` site of `validateContent`. -/
inductive ContentValidationError where
  | fileSizeExceeded (size max : Nat)
  | extensionNotAllowed (ext : String)
  | mimeTypeNotAllowed (mt : String)
deriving DecidableEq, Repr

/-- The `ValidationResult` of the source, with abstract error tags. -/
structure ValidationResult where
  isValid : Bool
  errors : List ContentValidationError
  warnings : List String
deriving DecidableEq, Repr

/-- Size check of `validateContent` (part_017:347-352). -/
def sizeErrorsOf (cfg : ContentValidationConfig) (contentLength : Nat) :
    List ContentValidationError :=
  if contentLength > cfg.maxFileSizeMB * 1024 * 1024 then
    [.fileSizeExceeded contentLength (cfg.maxFileSizeMB * 1024 * 1024)]
  else []

/-- Extension check of `validateContent` (part_017:354-357). -/
def extErrorsOf (filename : String) : List ContentValidationError :=
  match (lastExtension (toLowerStr filename).data).map (fun cs => String.mk cs) with
  | some ext => if ext ∈ allowedExtensions then [] else [.extensionNotAllowed ext]
  | none => []

/-- MIME check of `validateContent` (part_017:359-364): only enforced when the
`requireHttps` flag is set and a MIME type was detected. -/
def mimeErrorsOf (cfg : ContentValidationConfig) (mimeLookup : String → Option String)
    (filename : String) : List ContentValidationError :=
  match mimeLookup filename with
  | some mt =>
    if cfg.requireHttps = true ∧ mt ∉ allowedMimeTypes then [.mimeTypeNotAllowed mt]
    else []
  | none => []

/-- Malware scan of `validateContent` (part_017:366-375): warnings only. -/
def malwareWarningsOf (cfg : ContentValidationConfig) (contentHead : String) :
    List String :=
  if cfg.scanForMalware then
    (suspiciousPatterns.filter
        (fun p => listContainsSeg p.data (toLowerStr contentHead).data)).map
      (fun p => "Suspicious content pattern detected: " ++ p)
  else []

/-- Embedding of `PinataIPFSService.validateContent`. -/
def validateContent (cfg : ContentValidationConfig) (mimeLookup : String → Option String)
    (contentLength : Nat) (contentHead : String) (filename : String) : ValidationResult :=
  let errors := sizeErrorsOf cfg contentLength ++ extErrorsOf filename ++
    mimeErrorsOf cfg mimeLookup filename
  { isValid := decide (errors.length = 0), errors := errors,
    warnings := malwareWarningsOf cfg contentHead }

/-! ## Content download (`ContentDownloader`, src/unnamed/part_015:
`downloadContent` 49-111, `streamDownload` 117-176, `validateUrl` 182-234,
`validateResponse` 240-262)

The WHATWG `new URL` parser is an oracle `parseUrl : String → Option ParsedUrl`
(`none` models a constructor throw, mapped to `INVALID_URL`); the HTTP
transport is an oracle `net : String → Option HttpResponse` (`none` models a
transport failure, mapped to `DOWNLOAD_FAILED`; axios itself rejects statuses
outside 2xx per `validateStatus`).  The response body arrives as a list of
chunk sizes; `streamDownload` accumulates them and aborts the moment the
accumulated size exceeds the configured maximum.  The `Except` result carries
either the error code or the completed download, so a failed download returns
no partial content.  The network request issued by axios is recorded as a
trace event, emitted strictly after URL validation, mirroring the source
order.  Temp-file staging, hashing and metadata derivation are not modelled. -/

/-- Error codes of the `ContentError`s thrown by the downloader. -/
inductive ContentErrorCode where
  | invalidUrl
  | invalidProtocol
  | httpsRequired
  | privateAddressBlocked
  | contentTooLarge
  | fileTooLarge
  | streamError
  | writeError
  | readError
  | downloadFailed
deriving DecidableEq, Repr

/-- The two members of a parsed WHATWG URL consulted by `validateUrl`. -/
structure ParsedUrl where
  protocol : String
  hostname : String
deriving DecidableEq, Repr

/-- JavaScript `s.startsWith(p)`. -/
def strStartsWith (s p : String) : Bool := p.data.isPrefixOf s.data

/-- The regex `/^172\.(1[6-9]|2[0-9]|3[01])\./` spelled out as its sixteen
literal prefixes. -/
def is172Private (h : String) : Bool :=
  ["172.16.", "172.17.", "172.18.", "172.19.", "172.20.", "172.21.", "172.22.",
   "172.23.", "172.24.", "172.25.", "172.26.", "172.27.", "172.28.", "172.29.",
   "172.30.", "172.31."].any (fun p => strStartsWith h p)

/-- The `privatePatterns` list of `validateUrl` (part_015:203-212): anchored
regexes become equalities, prefix regexes become `startsWith`; note the last
pattern is the literal prefix `fc00:`, not the full `fc00::/7` range. -/
def isPrivateHostname (h : String) : Bool :=
  decide (h = "localhost") || strStartsWith h "127." || strStartsWith h "10." ||
  is172Private h || strStartsWith h "192.168." || strStartsWith h "169.254." ||
  decide (h = "::1") || strStartsWith h "fc00:"

/-- Embedding of `ContentDownloader.validateUrl`; `production` is
`process.env.NODE_ENV === 'production'`. -/
def validateUrl (production : Bool) (parseUrl : String → Option ParsedUrl)
    (url : String) : Except ContentErrorCode Unit :=
  match parseUrl url with
  | none => .error .invalidUrl
  | some p =>
    if ¬ (p.protocol = "http:" ∨ p.protocol = "https:") then .error .invalidProtocol
    else if production = true ∧ p.protocol ≠ "https:" then .error .httpsRequired
    else if isPrivateHostname (toLowerStr p.hostname) = true then
      .error .privateAddressBlocked
    else .ok ()

/-- The members of an HTTP response consulted by the downloader; the body is
the list of streamed chunk sizes. -/
structure HttpResponse where
  status : Nat
  contentLength : Option Nat
  chunks : List Nat
deriving DecidableEq, Repr

/-- Network actions, recorded as a trace. -/
inductive NetEvent where
  | httpRequest (url : String)
deriving DecidableEq, Repr

/-- Embedding of `ContentDownloader.validateResponse`: reject immediately when
a declared `Content-Length` already exceeds the maximum. -/
def validateResponse (maxFileSize : Nat) (r : HttpResponse) :
    Except ContentErrorCode Unit :=
  match r.contentLength with
  | some n => if n > maxFileSize then .error .contentTooLarge else .ok ()
  | none => .ok ()

/-- Embedding of the size accounting of `ContentDownloader.streamDownload`:
per chunk, `downloadedSize += chunk.length`, rejecting with `FILE_TOO_LARGE`
the instant the accumulated size exceeds the maximum. -/
def streamChunks (maxFileSize : Nat) : Nat → List Nat → Except ContentErrorCode Nat
  | acc, [] => .ok acc
  | acc, c :: rest =>
    if acc + c > maxFileSize then .error .fileTooLarge
    else streamChunks maxFileSize (acc + c) rest

/-- Successful download result: total size and HTTP status. -/
structure DownloadOk where
  size : Nat
  httpStatus : Nat
deriving DecidableEq, Repr

/-- Embedding of `ContentDownloader.downloadContent`: validate the URL before
any network call, perform the request, validate the response, stream the
body. -/
def downloadContent (production : Bool) (maxFileSize : Nat)
    (parseUrl : String → Option ParsedUrl) (net : String → Option HttpResponse)
    (url : String) : List NetEvent × Except ContentErrorCode DownloadOk :=
  match validateUrl production parseUrl url with
  | .error e => ([], .error e)
  | .ok _ =>
    let events := [NetEvent.httpRequest url]
    match net url with
    | none => (events, .error .downloadFailed)
    | some r =>
      if 200 ≤ r.status ∧ r.status < 300 then
        match validateResponse maxFileSize r with
        | .error e => (events, .error e)
        | .ok _ =>
          match streamChunks maxFileSize 0 r.chunks with
          | .error e => (events, .error e)
          | .ok total => (events, .ok ⟨total, r.status⟩)
      else (events, .error .downloadFailed)

/-- Modelled from the spec: the loopback/private/link-local pattern list of
§4.1 — `localhost`, `127.*`, `10.*`, `172.16–31.*`, `192.168.*`, `169.254.*`,
`::1`, `fc00::/7` — reading `fc00::/7` as the full unique-local IPv6 range,
whose textual hostnames begin with `fc` or `fd`. -/
def specPrivateHostPattern (h : String) : Bool :=
  decide (h = "localhost") || strStartsWith h "127." || strStartsWith h "10." ||
  is172Private h || strStartsWith h "192.168." || strStartsWith h "169.254." ||
  decide (h = "::1") || strStartsWith h "fc" || strStartsWith h "fd"

/-! ## Theorems -/
theorem splitDash_ne_nil (cs : List Char) : splitDash cs ≠ [] := by
  induction cs with
  | nil => simp [splitDash]
  | cons c rest ih =>
    simp only [splitDash]
    split
    · simp
    · cases h : splitDash rest with
      | nil => simp
      | cons g gs => simp

theorem joinDash_cons_cons (x : List Char) (y : List Char) (ys : List (List Char)) :
    joinDash (x :: y :: ys) = x ++ '-' :: joinDash (y :: ys) := by
  rfl

theorem joinDash_splitDash (cs : List Char) : joinDash (splitDash cs) = cs := by
  induction cs with
  | nil => rfl
  | cons c rest ih =>
    simp only [splitDash]
    split
    · rename_i hc
      subst hc
      cases h : splitDash rest with
      | nil => exact absurd h (splitDash_ne_nil rest)
      | cons g gs =>
        rw [h] at ih
        rw [joinDash_cons_cons]
        simpa using ih
    · cases h : splitDash rest with
      | nil => exact absurd h (splitDash_ne_nil rest)
      | cons g gs =>
        rw [h] at ih
        cases gs with
        | nil => simpa [joinDash] using ih
        | cons g2 gs2 =>
          rw [joinDash_cons_cons] at ih ⊢
          simpa using ih

theorem splitDash_no_dash {cs : List Char} (h : '-' ∉ cs) : splitDash cs = [cs] := by
  induction cs with
  | nil => rfl
  | cons c rest ih =>
    simp only [List.mem_cons, not_or] at h
    simp only [splitDash]
    rw [if_neg (fun hc => h.1 hc.symm)]
    rw [ih h.2]

theorem splitDash_append {xs : List Char} (ys : List Char) (h : '-' ∉ xs) :
    splitDash (xs ++ '-' :: ys) = xs :: splitDash ys := by
  induction xs with
  | nil => simp [splitDash]
  | cons c rest ih =>
    simp only [List.mem_cons, not_or] at h
    simp only [List.cons_append, splitDash]
    rw [if_neg (fun hc => h.1 hc.symm)]
    simp only [List.append_eq]
    rw [ih h.2]

theorem isNumericSeg_no_dash {cs : List Char} (h : isNumericSeg cs = true) : '-' ∉ cs := by
  intro hm
  simp only [isNumericSeg, Bool.and_eq_true, List.all_eq_true] at h
  exact absurd (h.2 '-' hm) (by decide)

theorem isAddressSeg_no_dash {cs : List Char} (h : isAddressSeg cs = true) : '-' ∉ cs := by
  intro hm
  simp only [isAddressSeg, Bool.and_eq_true, decide_eq_true_eq, List.all_eq_true] at h
  obtain ⟨⟨hlen, htake⟩, hall⟩ := h
  rw [← List.take_append_drop 2 cs] at hm
  rcases List.mem_append.1 hm with h1 | h1
  · rw [htake] at h1
    simp at h1
  · exact absurd (hall '-' h1) (by decide)

/-- Claim C8. `parseEcocertId` succeeds exactly on inputs of the form
`chainId ++ "-" ++ contractAddress ++ "-" ++ tokenId` with a numeric chain id,
a `0x`+40-hex-digit address and a numeric token id, and on success it returns
exactly those three segments together with the full input string. -/
theorem C8_parseEcocertId_characterisation (cs : List Char) :
    ((parseEcocertId cs).isSome ↔
      ∃ c a t, isNumericSeg c = true ∧ isAddressSeg a = true ∧ isNumericSeg t = true ∧
        cs = c ++ '-' :: (a ++ '-' :: t)) ∧
    (∀ c a t, isNumericSeg c = true → isAddressSeg a = true → isNumericSeg t = true →
      cs = c ++ '-' :: (a ++ '-' :: t) → parseEcocertId cs = some ⟨c, a, t, cs⟩) := by
  have hparse : ∀ c a t, isNumericSeg c = true → isAddressSeg a = true →
      isNumericSeg t = true → cs = c ++ '-' :: (a ++ '-' :: t) →
      parseEcocertId cs = some ⟨c, a, t, cs⟩ := by
    intro c a t hc ha ht heq
    have hsplit : splitDash cs = [c, a, t] := by
      rw [heq, splitDash_append _ (isNumericSeg_no_dash hc),
        splitDash_append _ (isAddressSeg_no_dash ha),
        splitDash_no_dash (isNumericSeg_no_dash ht)]
    unfold parseEcocertId
    rw [hsplit]
    simp [hc, ha, ht]
  refine ⟨⟨fun hsome => ?_, fun ⟨c, a, t, hc, ha, ht, heq⟩ => ?_⟩, hparse⟩
  · unfold parseEcocertId at hsome
    split at hsome
    · rename_i p0 p1 p2 hsplit
      split at hsome
      · rename_i hok
        simp only [Bool.and_eq_true] at hok
        refine ⟨p0, p1, p2, hok.1.1, hok.1.2, hok.2, ?_⟩
        have := joinDash_splitDash cs
        rw [hsplit] at this
        simp only [joinDash_cons_cons, joinDash] at this
        exact this.symm
      · simp at hsome
    · simp at hsome
  · rw [hparse c a t hc ha ht heq]
    rfl

/-- Concrete instantiation of the C8 characterisation at a valid identifier. -/
theorem C8_parseEcocertId_witness :
    parseEcocertId ("42220-0x16bA53B74c234C870c61EFC04cD418B8f2865959-123456789").data =
      some ⟨("42220").data, ("0x16bA53B74c234C870c61EFC04cD418B8f2865959").data,
        ("123456789").data, ("42220-0x16bA53B74c234C870c61EFC04cD418B8f2865959-123456789").data⟩ :=
  (C8_parseEcocertId_characterisation
    ("42220-0x16bA53B74c234C870c61EFC04cD418B8f2865959-123456789").data).2
    ("42220").data ("0x16bA53B74c234C870c61EFC04cD418B8f2865959").data ("123456789").data
    (by decide) (by decide) (by decide) (by decide)

theorem mem_addSource (v : String → Bool) (acc : List String) (s : ContentSource)
    (u : String) :
    u ∈ addSource v acc s ↔ u ∈ acc ∨ (s.type = .url ∧ v s.src = true ∧ s.src = u) := by
  unfold addSource
  split
  · rename_i hcond
    simp only [List.mem_append, List.mem_singleton]
    constructor
    · rintro (h | h)
      · exact Or.inl h
      · exact Or.inr ⟨hcond.1, hcond.2.1, h.symm⟩
    · rintro (h | h)
      · exact Or.inl h
      · exact Or.inr h.2.2.symm
  · rename_i hcond
    constructor
    · exact Or.inl
    · rintro (h | ⟨h1, h2, h3⟩)
      · exact h
      · by_cases hm : s.src ∈ acc
        · rwa [← h3]
        · exact absurd ⟨h1, h2, hm⟩ hcond

theorem nodup_addSource (v : String → Bool) (acc : List String) (s : ContentSource)
    (h : acc.Nodup) : (addSource v acc s).Nodup := by
  unfold addSource
  split
  · rename_i hcond
    simpa [List.nodup_append] using ⟨h, hcond.2.2⟩
  · exact h

theorem mem_foldl_addSource (v : String → Bool) (srcs : List ContentSource)
    (acc : List String) (u : String) :
    u ∈ srcs.foldl (addSource v) acc ↔
      u ∈ acc ∨ ∃ s ∈ srcs, s.type = .url ∧ v s.src = true ∧ s.src = u := by
  induction srcs generalizing acc with
  | nil => simp
  | cons s rest ih =>
    simp only [List.foldl_cons, ih, mem_addSource, List.mem_cons]
    constructor
    · rintro ((h | h) | ⟨t, ht, hp⟩)
      · exact Or.inl h
      · exact Or.inr ⟨s, Or.inl rfl, h⟩
      · exact Or.inr ⟨t, Or.inr ht, hp⟩
    · rintro (h | ⟨t, ht | ht, hp⟩)
      · exact Or.inl (Or.inl h)
      · exact Or.inl (Or.inr (ht ▸ hp))
      · exact Or.inr ⟨t, ht, hp⟩

theorem nodup_foldl_addSource (v : String → Bool) (srcs : List ContentSource)
    (acc : List String) (h : acc.Nodup) : (srcs.foldl (addSource v) acc).Nodup := by
  induction srcs generalizing acc with
  | nil => exact h
  | cons s rest ih => exact ih _ (nodup_addSource v acc s h)

theorem mem_extract_aux (v : String → Bool) (atts : List EcocertAttestation)
    (acc : List String) (u : String) :
    u ∈ atts.foldl (fun acc a => a.data.sources.foldl (addSource v) acc) acc ↔
      u ∈ acc ∨ ∃ a ∈ atts, ∃ s ∈ a.data.sources,
        s.type = .url ∧ v s.src = true ∧ s.src = u := by
  induction atts generalizing acc with
  | nil => simp
  | cons a rest ih =>
    simp only [List.foldl_cons, ih, mem_foldl_addSource, List.mem_cons]
    constructor
    · rintro ((h | ⟨s, hs, hp⟩) | ⟨b, hb, hrest⟩)
      · exact Or.inl h
      · exact Or.inr ⟨a, Or.inl rfl, s, hs, hp⟩
      · exact Or.inr ⟨b, Or.inr hb, hrest⟩
    · rintro (h | ⟨b, hb | hb, hrest⟩)
      · exact Or.inl (Or.inl h)
      · exact Or.inl (Or.inr (hb ▸ hrest))
      · exact Or.inr ⟨b, hb, hrest⟩

/-- Claim C9. `extractExternalUrls` returns, without duplicates, exactly the `src`
strings of `url`-tagged sources accepted by the URL-validity predicate, across
and within all attestations; `ipfs`/`arweave` sources and rejected strings
never appear. -/
theorem C9_extractExternalUrls_spec (v : String → Bool)
    (atts : List EcocertAttestation) :
    (extractExternalUrls v atts).Nodup ∧
    ∀ u, u ∈ extractExternalUrls v atts ↔
      ∃ a ∈ atts, ∃ s ∈ a.data.sources, s.type = .url ∧ v s.src = true ∧ s.src = u := by
  constructor
  · have aux : ∀ (l : List EcocertAttestation) (acc : List String), acc.Nodup →
        (l.foldl (fun acc a => a.data.sources.foldl (addSource v) acc) acc).Nodup := by
      intro l
      induction l with
      | nil => exact fun acc h => h
      | cons a rest ih => exact fun acc h => ih _ (nodup_foldl_addSource v _ acc h)
    exact aux atts [] List.nodup_nil
  · intro u
    unfold extractExternalUrls
    rw [mem_extract_aux]
    simp

/-- Concrete instantiation of C9: sources `[urlA, urlA, ipfsB]` yield exactly
`[urlA]`, and membership matches the characterisation. -/
theorem C9_extractExternalUrls_witness :
    extractExternalUrls (fun s => s = "https://a.example/doc.pdf")
      [⟨"att-1", ⟨[⟨.url, "https://a.example/doc.pdf"⟩,
        ⟨.url, "https://a.example/doc.pdf"⟩,
        ⟨.ipfs, "QmB"⟩]⟩⟩] = ["https://a.example/doc.pdf"] ∧
    (extractExternalUrls (fun s => s = "https://a.example/doc.pdf")
      [⟨"att-1", ⟨[⟨.url, "https://a.example/doc.pdf"⟩,
        ⟨.url, "https://a.example/doc.pdf"⟩,
        ⟨.ipfs, "QmB"⟩]⟩⟩]).Nodup :=
  ⟨by decide,
    (C9_extractExternalUrls_spec (fun s => s = "https://a.example/doc.pdf")
      [⟨"att-1", ⟨[⟨.url, "https://a.example/doc.pdf"⟩,
        ⟨.url, "https://a.example/doc.pdf"⟩,
        ⟨.ipfs, "QmB"⟩]⟩⟩]).1⟩

/-- Claim C1. In any `processEcocert` run that reaches URL processing (the id
parses, attestations were found, at least one URL was extracted), the result
status is `completed` iff the error list is empty or at least one URL was
archived, and `failed` iff errors are present and zero URLs were archived. -/
theorem C1_processEcocert_status_classification (v : String → Bool)
    (attInsertError : EcocertAttestation → Option String)
    (urlError : String → Option String) (ecocertId : List Char)
    (atts : List EcocertAttestation)
    (hp : (parseEcocertId ecocertId).isSome)
    (ha : atts.length ≠ 0)
    (hu : (extractExternalUrls v atts).length ≠ 0) :
    ((processEcocert v attInsertError urlError ecocertId atts).status = .completed ↔
      ((processEcocert v attInsertError urlError ecocertId atts).errors = [] ∨
        0 < (processEcocert v attInsertError urlError ecocertId atts).successfullyArchived)) ∧
    ((processEcocert v attInsertError urlError ecocertId atts).status = .failed ↔
      ((processEcocert v attInsertError urlError ecocertId atts).errors ≠ [] ∧
        (processEcocert v attInsertError urlError ecocertId atts).successfullyArchived = 0)) := by
  obtain ⟨pid, hpid⟩ := Option.isSome_iff_exists.1 hp
  unfold processEcocert
  rw [hpid]
  simp only [if_neg ha, if_neg hu]
  set attErrors := atts.filterMap (fun a =>
    (attInsertError a).map fun m => "Failed to store attestation " ++ a.uid ++ ": " ++ m)
  set urls := extractExternalUrls v atts
  set urlErrors := urls.filterMap fun u =>
    (urlError u).map fun m => "Failed to process URL " ++ u ++ ": " ++ m
  set succ := (urls.filter fun u => urlError u = none).length
  have statusClassify : ∀ (errs : List String) (n : Nat),
      (((if errs.length = 0 then ProcessingStatus.completed
          else if n > 0 then ProcessingStatus.completed
          else ProcessingStatus.failed) = ProcessingStatus.completed) ↔
        (errs = [] ∨ 0 < n)) ∧
      (((if errs.length = 0 then ProcessingStatus.completed
          else if n > 0 then ProcessingStatus.completed
          else ProcessingStatus.failed) = ProcessingStatus.failed) ↔
        (errs ≠ [] ∧ n = 0)) := by
    intro errs n
    by_cases h : errs.length = 0
    · have hnil : errs = [] := List.length_eq_zero.1 h
      subst hnil
      simp
    · have hne : errs ≠ [] := fun hh => h (by simp [hh])
      by_cases hs : n > 0
      · simp only [if_neg h, if_pos hs]
        refine ⟨⟨fun _ => Or.inr hs, fun _ => trivial⟩,
          ⟨fun hc => absurd hc (by simp), fun hc => ?_⟩⟩
        omega
      · have hz : n = 0 := by omega
        subst hz
        simp only [if_neg h, if_neg hs]
        refine ⟨⟨fun hc => absurd hc (by simp), fun hc => ?_⟩, ⟨fun _ => ⟨hne, trivial⟩, fun _ => trivial⟩⟩
        rcases hc with hc | hc
        · exact absurd hc hne
        · omega
  exact ⟨(statusClassify (attErrors ++ urlErrors) succ).1,
    (statusClassify (attErrors ++ urlErrors) succ).2⟩

/-- Concrete instantiation of C1: one failing URL and one succeeding URL give
overall status `completed` with one error recorded. -/
theorem C1_processEcocert_witness :
    ((parseEcocertId ("1-0xabcDEF0123456789abcdef0123456789ABCDEF01-2").data).isSome) ∧
    (processEcocert (fun _ => true)
      (fun _ => none)
      (fun u => if u = "https://bad.example/x" then some "fetch failed" else none)
      ("1-0xabcDEF0123456789abcdef0123456789ABCDEF01-2").data
      [⟨"att-1", ⟨[⟨.url, "https://bad.example/x"⟩, ⟨.url, "https://good.example/y"⟩]⟩⟩]).status
        = .completed ∧
    ((processEcocert (fun _ => true)
      (fun _ => none)
      (fun u => if u = "https://bad.example/x" then some "fetch failed" else none)
      ("1-0xabcDEF0123456789abcdef0123456789ABCDEF01-2").data
      [⟨"att-1", ⟨[⟨.url, "https://bad.example/x"⟩, ⟨.url, "https://good.example/y"⟩]⟩⟩]).status
        = .completed ↔
      ((processEcocert (fun _ => true)
        (fun _ => none)
        (fun u => if u = "https://bad.example/x" then some "fetch failed" else none)
        ("1-0xabcDEF0123456789abcdef0123456789ABCDEF01-2").data
        [⟨"att-1", ⟨[⟨.url, "https://bad.example/x"⟩, ⟨.url, "https://good.example/y"⟩]⟩⟩]).errors = [] ∨
        0 < (processEcocert (fun _ => true)
          (fun _ => none)
          (fun u => if u = "https://bad.example/x" then some "fetch failed" else none)
          ("1-0xabcDEF0123456789abcdef0123456789ABCDEF01-2").data
          [⟨"att-1", ⟨[⟨.url, "https://bad.example/x"⟩, ⟨.url, "https://good.example/y"⟩]⟩⟩]).successfullyArchived)) :=
  ⟨by decide, by decide,
    (C1_processEcocert_status_classification (fun _ => true)
      (fun _ => none)
      (fun u => if u = "https://bad.example/x" then some "fetch failed" else none)
      ("1-0xabcDEF0123456789abcdef0123456789ABCDEF01-2").data
      [⟨"att-1", ⟨[⟨.url, "https://bad.example/x"⟩, ⟨.url, "https://good.example/y"⟩]⟩⟩]
      (by decide) (by decide) (by decide)).1⟩

theorem lookupRow_updateWhere (id : Nat) (f : ArchivedContentRow → ArchivedContentRow)
    (s : ArchiveStore) :
    lookupRow (updateWhere id f s).1 id = (lookupRow s id).map f := by
  induction s with
  | nil => rfl
  | cons e rest ih =>
    obtain ⟨k, r⟩ := e
    simp only [updateWhere, lookupRow]
    by_cases hk : k = id
    · simp [hk, lookupRow]
    · simp [hk, lookupRow, ih]

theorem updateWhere_count_zero (id : Nat) (f : ArchivedContentRow → ArchivedContentRow)
    (s : ArchiveStore) :
    (updateWhere id f s).2 = 0 ↔ lookupRow s id = none := by
  induction s with
  | nil => simp [updateWhere, lookupRow]
  | cons e rest ih =>
    obtain ⟨k, r⟩ := e
    simp only [updateWhere, lookupRow]
    by_cases hk : k = id
    · simp [hk]
    · simp [hk, ih]

theorem lookupRow_updateWhere_some {s : ArchiveStore} {id : Nat} {r : ArchivedContentRow}
    (f : ArchivedContentRow → ArchivedContentRow) (h : lookupRow s id = some r) :
    lookupRow (updateWhere id f s).1 id = some (f r) := by
  rw [lookupRow_updateWhere, h]
  rfl

theorem updateWhere_count_ne_zero (id : Nat) (f : ArchivedContentRow → ArchivedContentRow)
    (s : ArchiveStore) (h : (lookupRow s id).isSome) : ¬ (updateWhere id f s).2 = 0 := by
  rw [updateWhere_count_zero]
  intro hn
  rw [hn] at h
  simp at h

/-- Claim C3. For an existing row, entering `failed` with a non-empty message
sets `errorMessage`, stamps `lastRetryAt = now` and increments `retryCount` by
exactly one; entering `completed` clears `errorMessage`; and for an id with no
row the operation fails with `ARCHIVED_CONTENT_NOT_FOUND`. -/
theorem C3_updateArchiveStatus_transitions (now id : Nat) (s : ArchiveStore) :
    (∀ r m, lookupRow s id = some r → m ≠ "" →
      ∃ t, updateArchiveStatus now id .failed (some m) s = .ok t ∧
        lookupRow t id = some { r with
          status := .failed,
          errorMessage := some m,
          retryCount := r.retryCount + 1,
          lastRetryAt := some now }) ∧
    (∀ r, lookupRow s id = some r →
      ∃ t, updateArchiveStatus now id .completed none s = .ok t ∧
        lookupRow t id = some { r with status := .completed, errorMessage := none }) ∧
    (lookupRow s id = none → ∀ st m,
      updateArchiveStatus now id st m s = .error .archivedContentNotFound) := by
  refine ⟨?_, ?_, ?_⟩
  · intro r m hr hm
    have hc1 : (ArchiveStatus.failed = ArchiveStatus.failed ∧ jsTruthy (some m) = true) :=
      ⟨rfl, by simp [jsTruthy, hm]⟩
    have hl1 : lookupRow
        (updateWhere id (fun r => { r with retryCount := r.retryCount + 1 }) s).1 id =
        some { r with retryCount := r.retryCount + 1 } :=
      lookupRow_updateWhere_some _ hr
    have hs1 : (lookupRow
        (updateWhere id (fun r => { r with retryCount := r.retryCount + 1 }) s).1 id).isSome := by
      rw [hl1]
      rfl
    unfold updateArchiveStatus
    dsimp only
    rw [if_pos hc1]
    rw [if_neg (show ¬ ArchiveStatus.failed = ArchiveStatus.completed by simp)]
    rw [if_neg (updateWhere_count_ne_zero id _ _ hs1)]
    refine ⟨_, rfl, ?_⟩
    rw [lookupRow_updateWhere, hl1]
    simp [hc1]
  · intro r hr
    have hl2 : lookupRow
        (updateWhere id (fun r => { r with errorMessage := (none : Option String) }) s).1 id =
        some { r with errorMessage := (none : Option String) } :=
      lookupRow_updateWhere_some _ hr
    have hs2 : (lookupRow
        (updateWhere id
          (fun r => { r with errorMessage := (none : Option String) }) s).1 id).isSome := by
      rw [hl2]
      rfl
    unfold updateArchiveStatus
    dsimp only
    rw [if_neg (show ¬ (ArchiveStatus.completed = ArchiveStatus.failed ∧
      jsTruthy (none : Option String) = true) by simp [jsTruthy])]
    rw [if_pos (show ArchiveStatus.completed = ArchiveStatus.completed from rfl)]
    rw [if_neg (updateWhere_count_ne_zero id _ _ hs2)]
    refine ⟨_, rfl, ?_⟩
    rw [lookupRow_updateWhere, hl2]
    simp [jsTruthy]
  · intro hnone st m
    have haux : ∀ f, lookupRow (updateWhere id f s).1 id = none := by
      intro f
      rw [lookupRow_updateWhere, hnone]
      rfl
    unfold updateArchiveStatus
    dsimp only
    by_cases h1 : st = .failed ∧ jsTruthy m = true
    · by_cases h2 : st = .completed
      · rw [h1.1] at h2
        exact absurd h2 (by simp)
      · rw [if_pos h1, if_neg h2,
          if_pos ((updateWhere_count_zero _ _ _).mpr (haux _))]
    · by_cases h2 : st = .completed
      · rw [if_neg h1, if_pos h2,
          if_pos ((updateWhere_count_zero _ _ _).mpr (haux _))]
      · rw [if_neg h1, if_neg h2,
          if_pos ((updateWhere_count_zero _ _ _).mpr hnone)]

/-- Concrete instantiation of C3: a failing transition with message on row 7,
and a not-found failure for absent row 9. -/
theorem C3_updateArchiveStatus_witness :
    (∃ t, updateArchiveStatus 5000 7 .failed (some "fetch failed") sampleStore = .ok t ∧
      lookupRow t 7 = some { sampleRow with
        status := .failed,
        errorMessage := some "fetch failed",
        retryCount := sampleRow.retryCount + 1,
        lastRetryAt := some 5000 }) ∧
    updateArchiveStatus 5000 9 .failed (some "fetch failed") sampleStore =
      .error .archivedContentNotFound :=
  ⟨(C3_updateArchiveStatus_transitions 5000 7 sampleStore).1 sampleRow "fetch failed"
      (by decide) (by decide),
    (C3_updateArchiveStatus_transitions 5000 9 sampleStore).2.2 (by decide) .failed
      (some "fetch failed")⟩

/-- Claim C10. For an existing row, entering `failed` without a message, or
`downloading`, or `uploading`, changes only the status column: `retryCount`,
`lastRetryAt` and `errorMessage` (and every other column) keep their values. -/
theorem C10_updateArchiveStatus_frame (now id : Nat) (s : ArchiveStore)
    (r : ArchivedContentRow) (hr : lookupRow s id = some r) :
    (∃ t, updateArchiveStatus now id .failed none s = .ok t ∧
      lookupRow t id = some { r with status := .failed }) ∧
    (∃ t, updateArchiveStatus now id .downloading none s = .ok t ∧
      lookupRow t id = some { r with status := .downloading }) ∧
    (∃ t, updateArchiveStatus now id .uploading none s = .ok t ∧
      lookupRow t id = some { r with status := .uploading }) := by
  have key : ∀ st : ArchiveStatus,
      ¬ (st = ArchiveStatus.failed ∧ jsTruthy (none : Option String) = true) →
      ¬ st = ArchiveStatus.completed →
      ∃ t, updateArchiveStatus now id st none s = .ok t ∧
        lookupRow t id = some { r with status := st } := by
    intro st h1 h2
    unfold updateArchiveStatus
    dsimp only
    rw [if_neg h1, if_neg h2]
    rw [if_neg (updateWhere_count_ne_zero id _ _ (by rw [hr] ; rfl))]
    refine ⟨_, rfl, ?_⟩
    rw [lookupRow_updateWhere, hr]
    simp [h1]
  exact ⟨key .failed (by simp [jsTruthy]) (by simp),
    key .downloading (by simp [jsTruthy]) (by simp),
    key .uploading (by simp [jsTruthy]) (by simp)⟩

/-- Concrete instantiation of C10 at the sample table. -/
theorem C10_updateArchiveStatus_witness :
    (∃ t, updateArchiveStatus 5000 7 .downloading none sampleStore = .ok t ∧
      lookupRow t 7 = some { sampleRow with status := .downloading }) ∧
    (∃ t, updateArchiveStatus 5000 7 .failed none sampleStore = .ok t ∧
      lookupRow t 7 = some { sampleRow with status := .failed }) :=
  ⟨(C10_updateArchiveStatus_frame 5000 7 sampleStore sampleRow (by decide)).2.1,
    (C10_updateArchiveStatus_frame 5000 7 sampleStore sampleRow (by decide)).1⟩

/-- Counterexample to **C2** as stated: `updateArchiveStatus` entering
`failed` with a message issues two separate statements (the `retry_count`
increment and the row update), neither inside a transaction, so this mutating
operation does not execute its writes in a single transaction. -/
theorem C2_updateArchiveStatus_not_transactional :
    ¬ singleTransaction (updateArchiveStatusBlocks .failed (some "fetch failed")) := by
  intro h
  obtain ⟨b, hb, _⟩ := h
  have : updateArchiveStatusBlocks .failed (some "fetch failed") =
      [⟨false, [.incrementRetryCount]⟩, ⟨false, [.updateArchivedContentRow]⟩] := by decide
  rw [this] at hb
  simp at hb

/-- Claim C2 (amended). `insertAttestation` and `insertArchivedContent` do run
their multi-row writes (child-row insert plus identifier-counter increment)
inside one single transaction, so the `attestation_count` and
`archived_content_count` counters stay in sync with their child rows; but
`updateArchiveStatus` is not transactional: all of its blocks, for every
status and message, run as bare statements. -/
theorem C2_transaction_structure :
    (singleTransaction insertAttestationBlocks ∧
      ∃ b, insertAttestationBlocks = [b] ∧ b.transactional = true ∧
        DbStmt.insertAttestationRow ∈ b.stmts ∧
        DbStmt.incrementAttestationCount ∈ b.stmts) ∧
    (singleTransaction insertArchivedContentBlocks ∧
      ∃ b, insertArchivedContentBlocks = [b] ∧ b.transactional = true ∧
        DbStmt.insertArchivedContentRow ∈ b.stmts ∧
        DbStmt.incrementArchivedContentCount ∈ b.stmts) ∧
    (∀ st m, ∀ b ∈ updateArchiveStatusBlocks st m, b.transactional = false) := by
  refine ⟨⟨⟨_, rfl, rfl⟩, _, rfl, rfl, by decide, by decide⟩,
    ⟨⟨_, rfl, rfl⟩, _, rfl, rfl, by decide, by decide⟩, ?_⟩
  intro st m b hb
  unfold updateArchiveStatusBlocks at hb
  rcases List.mem_append.1 hb with h1 | h1
  · rcases List.mem_append.1 h1 with h2 | h2
    · split at h2
      · simp at h2
        rw [h2]
      · simp at h2
    · split at h2
      · simp at h2
        rw [h2]
      · simp at h2
  · simp at h1
    rw [h1]

/-- Concrete instantiation of the C2 block-level facts. -/
theorem C2_transaction_structure_witness :
    TxBlock.mk true [.selectEcocert, .insertAttestationRow, .incrementAttestationCount]
        ∈ insertAttestationBlocks ∧
    ∀ b ∈ updateArchiveStatusBlocks .completed none, b.transactional = false :=
  ⟨by decide, (C2_transaction_structure).2.2 .completed none⟩

theorem retryEligible_iff (now : Nat) (r : ArchivedContentRow) :
    retryEligible now r = true ↔
      r.status = .failed ∧ r.retryCount < 3 ∧
        (r.lastRetryAt = none ∨ ∃ t, r.lastRetryAt = some t ∧ t < now - 5 * 60 * 1000) := by
  unfold retryEligible
  cases h : r.lastRetryAt with
  | none => simp [h]
  | some t => simp [h, and_assoc]

theorem pgAscLe_total (a b : Option Nat) : pgAscLe a b = true ∨ pgAscLe b a = true := by
  cases a <;> cases b <;> simp [pgAscLe] <;> omega

theorem pgAscLe_trans {a b c : Option Nat} (h1 : pgAscLe a b = true)
    (h2 : pgAscLe b c = true) : pgAscLe a c = true := by
  cases a <;> cases b <;> cases c <;> simp_all [pgAscLe] <;> omega

theorem mem_insertByRetryAt (r a : ArchivedContentRow) (l : List ArchivedContentRow) :
    a ∈ insertByRetryAt r l ↔ a = r ∨ a ∈ l := by
  induction l with
  | nil => simp [insertByRetryAt]
  | cons x xs ih =>
    simp only [insertByRetryAt]
    split
    · simp [List.mem_cons]
    · simp only [List.mem_cons, ih]
      tauto

theorem length_insertByRetryAt (r : ArchivedContentRow) (l : List ArchivedContentRow) :
    (insertByRetryAt r l).length = l.length + 1 := by
  induction l with
  | nil => rfl
  | cons x xs ih =>
    simp only [insertByRetryAt]
    split
    · simp
    · simp [ih]

theorem mem_sortByRetryAt (a : ArchivedContentRow) (l : List ArchivedContentRow) :
    a ∈ sortByRetryAt l ↔ a ∈ l := by
  induction l with
  | nil => simp [sortByRetryAt]
  | cons x xs ih => simp [sortByRetryAt, mem_insertByRetryAt, ih]

theorem length_sortByRetryAt (l : List ArchivedContentRow) :
    (sortByRetryAt l).length = l.length := by
  induction l with
  | nil => rfl
  | cons x xs ih => simp [sortByRetryAt, length_insertByRetryAt, ih]

theorem pairwise_insertByRetryAt (r : ArchivedContentRow) (l : List ArchivedContentRow)
    (h : l.Pairwise (fun a b => pgAscLe a.lastRetryAt b.lastRetryAt = true)) :
    (insertByRetryAt r l).Pairwise (fun a b => pgAscLe a.lastRetryAt b.lastRetryAt = true) := by
  induction l with
  | nil => simp [insertByRetryAt]
  | cons x xs ih =>
    simp only [insertByRetryAt]
    split
    · rename_i hle
      refine List.Pairwise.cons ?_ h
      intro b hb
      rcases List.mem_cons.1 hb with hb | hb
      · subst hb
        exact hle
      · exact pgAscLe_trans hle ((List.pairwise_cons.1 h).1 b hb)
    · rename_i hnle
      have hxr : pgAscLe x.lastRetryAt r.lastRetryAt = true := by
        rcases pgAscLe_total r.lastRetryAt x.lastRetryAt with h1 | h1
        · exact absurd h1 hnle
        · exact h1
      obtain ⟨hhead, htail⟩ := List.pairwise_cons.1 h
      refine List.Pairwise.cons ?_ (ih htail)
      intro b hb
      rcases (mem_insertByRetryAt r b xs).1 hb with hb | hb
      · rw [hb]
        exact hxr
      · exact hhead b hb

theorem pairwise_sortByRetryAt (l : List ArchivedContentRow) :
    (sortByRetryAt l).Pairwise (fun a b => pgAscLe a.lastRetryAt b.lastRetryAt = true) := by
  induction l with
  | nil => exact List.Pairwise.nil
  | cons x xs ih => exact pairwise_insertByRetryAt x _ ih

/-- Claim C4. `getFailedArchives` returns only records with status `failed`,
`retryCount < 3` and a null or cooled-down `lastRetryAt`; it returns at most
`min limit 200` of them; when the eligible set fits under that cap it returns
every eligible record; the output is ordered by `lastRetryAt` ascending
(oldest retry first, never-retried rows last under PostgreSQL ASC); and a
`failed` record with `retryCount = 3` is never returned, whatever its
`lastRetryAt`. -/
theorem C4_getFailedArchives_spec (now limit : Nat) (rows : List ArchivedContentRow) :
    (∀ r ∈ getFailedArchives now limit rows,
      r.status = .failed ∧ r.retryCount < 3 ∧
        (r.lastRetryAt = none ∨ ∃ t, r.lastRetryAt = some t ∧ t < now - 5 * 60 * 1000)) ∧
    (getFailedArchives now limit rows).length ≤ min limit 200 ∧
    ((rows.filter (retryEligible now)).length ≤ min limit 200 →
      ∀ r ∈ rows, retryEligible now r = true → r ∈ getFailedArchives now limit rows) ∧
    (getFailedArchives now limit rows).Pairwise
      (fun a b => pgAscLe a.lastRetryAt b.lastRetryAt = true) ∧
    (∀ r ∈ getFailedArchives now limit rows, r.retryCount ≠ 3) := by
  have hmem : ∀ r ∈ getFailedArchives now limit rows, retryEligible now r = true := by
    intro r hr
    have h1 : r ∈ sortByRetryAt (rows.filter (retryEligible now)) :=
      List.take_subset _ _ hr
    have h2 : r ∈ rows.filter (retryEligible now) := (mem_sortByRetryAt r _).1 h1
    exact (List.mem_filter.1 h2).2
  refine ⟨?_, ?_, ?_, ?_, ?_⟩
  · intro r hr
    exact (retryEligible_iff now r).1 (hmem r hr)
  · unfold getFailedArchives
    rw [List.length_take]
    exact min_le_left _ _
  · intro hlen r hr helig
    have hfil : r ∈ rows.filter (retryEligible now) := List.mem_filter.2 ⟨hr, helig⟩
    have hsorted : r ∈ sortByRetryAt (rows.filter (retryEligible now)) :=
      (mem_sortByRetryAt r _).2 hfil
    unfold getFailedArchives
    have hall : (sortByRetryAt (rows.filter (retryEligible now))).length ≤ min limit 200 := by
      rw [length_sortByRetryAt]
      exact hlen
    rw [List.take_of_length_le hall]
    exact hsorted
  · exact List.Pairwise.sublist (List.take_sublist _ _) (pairwise_sortByRetryAt _)
  · intro r hr
    have := (retryEligible_iff now r).1 (hmem r hr)
    omega

/-- Concrete instantiation of C4: the exhausted row is excluded, the eligible
row is returned. -/
theorem C4_getFailedArchives_witness :
    getFailedArchives 10000000 50 [retryRowExhausted, retryRowEligible] =
      [retryRowEligible] ∧
    retryRowEligible ∈ getFailedArchives 10000000 50 [retryRowExhausted, retryRowEligible] :=
  ⟨by decide,
    (C4_getFailedArchives_spec 10000000 50 [retryRowExhausted, retryRowEligible]).2.2.1
      (by decide) retryRowEligible (by decide) (by decide)⟩

theorem mem_sizeErrorsOf {cfg : ContentValidationConfig} {len : Nat}
    {e : ContentValidationError} (h : e ∈ sizeErrorsOf cfg len) :
    e = .fileSizeExceeded len (cfg.maxFileSizeMB * 1024 * 1024) := by
  unfold sizeErrorsOf at h
  split at h
  · simpa using h
  · simp at h

theorem mem_extErrorsOf {fn : String} {e : ContentValidationError}
    (h : e ∈ extErrorsOf fn) : ∃ x, e = .extensionNotAllowed x := by
  unfold extErrorsOf at h
  split at h
  · rename_i ext heq
    split at h
    · simp at h
    · exact ⟨ext, by simpa using h⟩
  · simp at h

theorem mem_mimeErrorsOf {cfg : ContentValidationConfig}
    {mimeLookup : String → Option String} {fn : String} {e : ContentValidationError}
    (h : e ∈ mimeErrorsOf cfg mimeLookup fn) :
    cfg.requireHttps = true ∧ ∃ mt, e = .mimeTypeNotAllowed mt := by
  unfold mimeErrorsOf at h
  split at h
  · rename_i mt heq
    split at h
    · rename_i hcond
      exact ⟨hcond.1, mt, by simpa using h⟩
    · simp at h
  · simp at h

/-- Claim C5. A detected MIME type outside the allowlist is a hard validation
error only when the `requireHttps` flag is set; with the flag unset no content
is ever rejected on MIME grounds, while the size and extension checks behave
identically whatever the flag. -/
theorem C5_validateContent_mime_gating (cfg : ContentValidationConfig)
    (mimeLookup : String → Option String) (len : Nat) (head fn : String) :
    ((∃ mt, ContentValidationError.mimeTypeNotAllowed mt ∈
        (validateContent cfg mimeLookup len head fn).errors) → cfg.requireHttps = true) ∧
    (cfg.requireHttps = false → ∀ e ∈ (validateContent cfg mimeLookup len head fn).errors,
      (∃ s mx, e = .fileSizeExceeded s mx) ∨ (∃ x, e = .extensionNotAllowed x)) ∧
    (∀ b1 b2 : Bool, ∀ s mx : Nat,
      (ContentValidationError.fileSizeExceeded s mx ∈
          (validateContent { cfg with requireHttps := b1 } mimeLookup len head fn).errors ↔
        ContentValidationError.fileSizeExceeded s mx ∈
          (validateContent { cfg with requireHttps := b2 } mimeLookup len head fn).errors)) ∧
    (∀ b1 b2 : Bool, ∀ x : String,
      (ContentValidationError.extensionNotAllowed x ∈
          (validateContent { cfg with requireHttps := b1 } mimeLookup len head fn).errors ↔
        ContentValidationError.extensionNotAllowed x ∈
          (validateContent { cfg with requireHttps := b2 } mimeLookup len head fn).errors)) := by
  have memSplit : ∀ (c : ContentValidationConfig) (e : ContentValidationError),
      e ∈ (validateContent c mimeLookup len head fn).errors ↔
        e ∈ sizeErrorsOf c len ∨ e ∈ extErrorsOf fn ∨ e ∈ mimeErrorsOf c mimeLookup fn := by
    intro c e
    unfold validateContent
    simp [List.mem_append, or_assoc]
  refine ⟨?_, ?_, ?_, ?_⟩
  · rintro ⟨mt, hmt⟩
    rcases (memSplit cfg _).1 hmt with h | h | h
    · exact absurd (mem_sizeErrorsOf h) (by simp)
    · obtain ⟨x, hx⟩ := mem_extErrorsOf h
      exact absurd hx (by simp)
    · exact (mem_mimeErrorsOf h).1
  · intro hflag e he
    rcases (memSplit cfg e).1 he with h | h | h
    · exact Or.inl ⟨len, cfg.maxFileSizeMB * 1024 * 1024, mem_sizeErrorsOf h⟩
    · exact Or.inr (mem_extErrorsOf h)
    · rw [(mem_mimeErrorsOf h).1] at hflag
      exact absurd hflag (by simp)
  · intro b1 b2 s mx
    constructor
    · intro h
      rcases (memSplit _ _).1 h with h | h | h
      · exact (memSplit _ _).2 (Or.inl h)
      · exact absurd (mem_extErrorsOf h) (by simp)
      · obtain ⟨_, mt, hmt⟩ := mem_mimeErrorsOf h
        exact absurd hmt (by simp)
    · intro h
      rcases (memSplit _ _).1 h with h | h | h
      · exact (memSplit _ _).2 (Or.inl h)
      · exact absurd (mem_extErrorsOf h) (by simp)
      · obtain ⟨_, mt, hmt⟩ := mem_mimeErrorsOf h
        exact absurd hmt (by simp)
  · intro b1 b2 x
    constructor
    · intro h
      rcases (memSplit _ _).1 h with h | h | h
      · exact absurd (mem_sizeErrorsOf h) (by simp)
      · exact (memSplit _ _).2 (Or.inr (Or.inl h))
      · obtain ⟨_, mt, hmt⟩ := mem_mimeErrorsOf h
        exact absurd hmt (by simp)
    · intro h
      rcases (memSplit _ _).1 h with h | h | h
      · exact absurd (mem_sizeErrorsOf h) (by simp)
      · exact (memSplit _ _).2 (Or.inr (Or.inl h))
      · obtain ⟨_, mt, hmt⟩ := mem_mimeErrorsOf h
        exact absurd hmt (by simp)

/-- Concrete instantiation of C5: with `requireHttps` unset, a disallowed
detected MIME type produces no error; with it set, it does. -/
theorem C5_validateContent_witness :
    (validateContent { maxFileSizeMB := 100, requireHttps := false, scanForMalware := true }
      (fun _ => some "application/zip") 10 "" "archive.pdf").errors = [] ∧
    (validateContent { maxFileSizeMB := 100, requireHttps := true, scanForMalware := true }
      (fun _ => some "application/zip") 10 "" "archive.pdf").errors =
        [.mimeTypeNotAllowed "application/zip"] ∧
    (({ maxFileSizeMB := 100, requireHttps := false, scanForMalware := true } :
        ContentValidationConfig).requireHttps = false →
      ∀ e ∈ (validateContent
          { maxFileSizeMB := 100, requireHttps := false, scanForMalware := true }
          (fun _ => some "application/zip") 10 "" "archive.pdf").errors,
        (∃ s mx, e = .fileSizeExceeded s mx) ∨ (∃ x, e = .extensionNotAllowed x)) :=
  ⟨by decide, by decide,
    (C5_validateContent_mime_gating
      { maxFileSizeMB := 100, requireHttps := false, scanForMalware := true }
      (fun _ => some "application/zip") 10 "" "archive.pdf").2.1⟩

theorem streamChunks_sum_exceeds (maxFileSize : Nat) :
    ∀ (l : List Nat) (acc : Nat), acc + l.sum > maxFileSize → acc ≤ maxFileSize →
      streamChunks maxFileSize acc l = .error .fileTooLarge := by
  intro l
  induction l with
  | nil =>
    intro acc h1 h2
    simp at h1
    omega
  | cons c rest ih =>
    intro acc h1 h2
    simp only [streamChunks]
    by_cases hc : acc + c > maxFileSize
    · rw [if_pos hc]
    · rw [if_neg hc]
      refine ih (acc + c) ?_ (by omega)
      simp only [List.sum_cons] at h1
      omega

/-- Claim C6. Whenever a download passes URL validation and receives a 2xx
response whose size exceeds the configured maximum — declared via
`Content-Length` or accumulated over the streamed chunks — `downloadContent`
fails with a size-exceeded error (`CONTENT_TOO_LARGE` or `FILE_TOO_LARGE`);
the `Except` result carries no partial content. -/
theorem C6_downloadContent_size_limit (production : Bool) (maxFileSize : Nat)
    (parseUrl : String → Option ParsedUrl) (net : String → Option HttpResponse)
    (url : String) (r : HttpResponse)
    (hv : validateUrl production parseUrl url = .ok ())
    (hnet : net url = some r)
    (hst : 200 ≤ r.status ∧ r.status < 300)
    (hsize : (∃ n, r.contentLength = some n ∧ n > maxFileSize) ∨
      r.chunks.sum > maxFileSize) :
    ∃ e, (downloadContent production maxFileSize parseUrl net url).2 = .error e ∧
      (e = .contentTooLarge ∨ e = .fileTooLarge) := by
  unfold downloadContent
  rw [hv, hnet]
  dsimp only
  rw [if_pos hst]
  rcases hsize with ⟨n, hn, hgt⟩ | hsum
  · have hvr : validateResponse maxFileSize r = .error .contentTooLarge := by
      unfold validateResponse
      rw [hn]
      simp [hgt]
    rw [hvr]
    exact ⟨.contentTooLarge, rfl, Or.inl rfl⟩
  · cases hcl : r.contentLength with
    | some n =>
      by_cases hgt : n > maxFileSize
      · have hvr : validateResponse maxFileSize r = .error .contentTooLarge := by
          unfold validateResponse
          rw [hcl]
          simp [hgt]
        rw [hvr]
        exact ⟨.contentTooLarge, rfl, Or.inl rfl⟩
      · have hvr : validateResponse maxFileSize r = .ok () := by
          unfold validateResponse
          rw [hcl]
          simp [hgt]
        rw [hvr]
        rw [streamChunks_sum_exceeds maxFileSize r.chunks 0 (by omega) (by omega)]
        exact ⟨.fileTooLarge, rfl, Or.inr rfl⟩
    | none =>
      have hvr : validateResponse maxFileSize r = .ok () := by
        unfold validateResponse
        rw [hcl]
      rw [hvr]
      rw [streamChunks_sum_exceeds maxFileSize r.chunks 0 (by omega) (by omega)]
      exact ⟨.fileTooLarge, rfl, Or.inr rfl⟩

/-- Concrete instantiation of C6: a 2xx response streaming 120 bytes against a
100-byte cap fails with a size error. -/
theorem C6_downloadContent_witness :
    validateUrl false (fun _ => some ⟨"https:", "example.org"⟩)
      "https://example.org/big" = .ok () ∧
    (⟨200, none, [60, 60]⟩ : HttpResponse).chunks.sum > 100 ∧
    ∃ e, (downloadContent false 100 (fun _ => some ⟨"https:", "example.org"⟩)
        (fun _ => some ⟨200, none, [60, 60]⟩) "https://example.org/big").2 = .error e ∧
      (e = .contentTooLarge ∨ e = .fileTooLarge) :=
  ⟨by rfl, by decide,
    C6_downloadContent_size_limit false 100 (fun _ => some ⟨"https:", "example.org"⟩)
      (fun _ => some ⟨200, none, [60, 60]⟩) "https://example.org/big" ⟨200, none, [60, 60]⟩
      (by rfl) rfl (by decide) (Or.inr (by decide))⟩

/-- Counterexample to **C7** as stated: hostname `fd00::1` lies inside
`fc00::/7` (it matches the spec pattern list), yet the code regex `/^fc00:/`
does not match it, so `downloadContent` issues the HTTP request and succeeds
instead of failing validation. -/
theorem C7_fc00_range_counterexample :
    specPrivateHostPattern "fd00::1" = true ∧
    isPrivateHostname (toLowerStr "fd00::1") = false ∧
    (downloadContent false 100 (fun _ => some ⟨"http:", "fd00::1"⟩)
      (fun _ => some ⟨200, none, [3]⟩) "http://[fd00::1]/doc").1 =
      [.httpRequest "http://[fd00::1]/doc"] ∧
    (downloadContent false 100 (fun _ => some ⟨"http:", "fd00::1"⟩)
      (fun _ => some ⟨200, none, [3]⟩) "http://[fd00::1]/doc").2 =
      .ok ⟨3, 200⟩ :=
  ⟨by decide, by decide, by decide, by rfl⟩

/-- Claim C7 (amended). For every URL whose parsed scheme is not http/https or
whose lowercased hostname matches one of the code's private patterns
(`localhost`, `127.*`, `10.*`, `172.16-31.*`, `192.168.*`, `169.254.*`,
`::1`, or the literal prefix `fc00:` — not the rest of `fc00::/7`),
`downloadContent` fails before any network request is issued (empty event
trace) with the corresponding validation error: `INVALID_PROTOCOL` for a bad
scheme; `PRIVATE_ADDRESS_BLOCKED` for a private hostname outside production
mode (in production a non-https scheme fails first with `HTTPS_REQUIRED`). -/
theorem C7_validateUrl_blocks_before_network (production : Bool) (maxFileSize : Nat)
    (parseUrl : String → Option ParsedUrl) (net : String → Option HttpResponse)
    (url : String) (p : ParsedUrl)
    (hp : parseUrl url = some p)
    (hbad : ¬ (p.protocol = "http:" ∨ p.protocol = "https:") ∨
      isPrivateHostname (toLowerStr p.hostname) = true) :
    ∃ e, downloadContent production maxFileSize parseUrl net url = ([], .error e) ∧
      (e = .invalidProtocol ∨ e = .httpsRequired ∨ e = .privateAddressBlocked) ∧
      (¬ (p.protocol = "http:" ∨ p.protocol = "https:") → e = .invalidProtocol) ∧
      (production = false → (p.protocol = "http:" ∨ p.protocol = "https:") →
        e = .privateAddressBlocked) := by
  have hval : ∃ e, validateUrl production parseUrl url = .error e ∧
      (e = .invalidProtocol ∨ e = .httpsRequired ∨ e = .privateAddressBlocked) ∧
      (¬ (p.protocol = "http:" ∨ p.protocol = "https:") → e = .invalidProtocol) ∧
      (production = false → (p.protocol = "http:" ∨ p.protocol = "https:") →
        e = .privateAddressBlocked) := by
    unfold validateUrl
    rw [hp]
    dsimp only
    by_cases h1 : ¬ (p.protocol = "http:" ∨ p.protocol = "https:")
    · rw [if_pos h1]
      exact ⟨.invalidProtocol, rfl, Or.inl rfl, fun _ => rfl,
        fun _ hpr => absurd hpr h1⟩
    · rw [if_neg h1]
      have hpr : p.protocol = "http:" ∨ p.protocol = "https:" := not_not.1 h1
      by_cases h2 : production = true ∧ p.protocol ≠ "https:"
      · rw [if_pos h2]
        refine ⟨.httpsRequired, rfl, Or.inr (Or.inl rfl),
          fun hcontra => absurd hpr hcontra, ?_⟩
        intro hprod _
        rw [hprod] at h2
        exact absurd h2.1 (by simp)
      · rw [if_neg h2]
        have hpriv : isPrivateHostname (toLowerStr p.hostname) = true := by
          rcases hbad with hb | hb
          · exact absurd hpr hb
          · exact hb
        rw [if_pos hpriv]
        exact ⟨.privateAddressBlocked, rfl, Or.inr (Or.inr rfl),
          fun hcontra => absurd hpr hcontra, fun _ _ => rfl⟩
  obtain ⟨e, he, hprops⟩ := hval
  refine ⟨e, ?_, hprops⟩
  unfold downloadContent
  rw [he]

/-- Concrete instantiation of the amended C7: `http://127.0.0.1/...` fails
with `PRIVATE_ADDRESS_BLOCKED` and an empty network trace. -/
theorem C7_validateUrl_witness :
    isPrivateHostname (toLowerStr "127.0.0.1") = true ∧
    ∃ e, downloadContent false 100 (fun _ => some ⟨"http:", "127.0.0.1"⟩)
        (fun _ => some ⟨200, none, [1]⟩) "http://127.0.0.1/x" = ([], .error e) ∧
      (e = .invalidProtocol ∨ e = .httpsRequired ∨ e = .privateAddressBlocked) ∧
      (¬ ((⟨"http:", "127.0.0.1"⟩ : ParsedUrl).protocol = "http:" ∨
          (⟨"http:", "127.0.0.1"⟩ : ParsedUrl).protocol = "https:") →
        e = .invalidProtocol) ∧
      (false = false → ((⟨"http:", "127.0.0.1"⟩ : ParsedUrl).protocol = "http:" ∨
          (⟨"http:", "127.0.0.1"⟩ : ParsedUrl).protocol = "https:") →
        e = .privateAddressBlocked) :=
  ⟨by decide,
    C7_validateUrl_blocks_before_network false 100 (fun _ => some ⟨"http:", "127.0.0.1"⟩)
      (fun _ => some ⟨200, none, [1]⟩) "http://127.0.0.1/x" ⟨"http:", "127.0.0.1"⟩
      rfl (Or.inr (by decide))⟩
